import Mathlib

/-!
Verification of the linkedin-scrapy job scraper core.

Shallow embedding of the Python sources:
  - `src/utils/utils.py` (`clean_html`, `parse_relative_time`)
  - `src/linkedin_scraper/pipelines.py` (`_clean_html`, `_ensure_backward_compatibility`,
    item collection and `close_spider`)
  - `src/linkedin_scraper/security.py` (`handle_security_challenge`)
  - `src/linkedin_scraper/middlewares.py` (`process_response` retry cap)
  - `src/linkedin_scraper/spiders/linkedin_jobs.py` (`check_job_limit`,
    `parse_search_results`, `parse_job_details`, `_extract_job_id_comprehensive`,
    `_extract_job_id_from_url`, `_extract_job_id_from_json`)

Strings are modelled as `String`/`List Char`; Python `datetime` deltas are
modelled in whole minutes; `random.uniform a b` is modelled as `a + (b-a)*r`
over `ℚ` with the random draw `r ∈ [0,1)` passed explicitly; `datetime.now()`
is passed explicitly as `now`.  Python regular expressions used by the code
are embedded as explicit scanners with the same leftmost-match semantics,
restricted to the ASCII character classes the scraped pages use.  Scanners
that jump forward over a removed match use an explicit fuel argument, one
unit per input character, so they stay structurally recursive; the fuel is
initialised to the input length and each step consumes at least one
character, so it never runs out.
-/

/-! Basic Python-style character and list helpers -/

/-- ASCII whitespace, matching Python's `\s` class and `str.strip()` on the
ASCII inputs the scraper handles. -/
def isPySpace (c : Char) : Bool :=
  c = ' ' || c = '\t' || c = '\n' || c = '\r' || c = '\x0b' || c = '\x0c'

/-- Python `str.strip()` on a character list. -/
def pyStrip (l : List Char) : List Char :=
  ((l.dropWhile isPySpace).reverse.dropWhile isPySpace).reverse

/-- Python `str.strip()` on a `String`. -/
def pyStripS (s : String) : String :=
  String.mk (pyStrip s.data)

/-- Python substring test `pat in l` (contiguous substring). -/
def containsSub (pat : List Char) : List Char → Bool
  | [] => pat.isEmpty
  | c :: cs => pat.isPrefixOf (c :: cs) || containsSub pat cs

/-- Python substring test on `String`s. -/
def containsSubS (pat s : String) : Bool :=
  containsSub pat.data s.data

/-! Embedding of `utils.clean_html` (src/utils/utils.py lines 7-27) and of
`LinkedinJobPipeline._clean_html` (src/linkedin_scraper/pipelines.py lines
164-175). -/

/-- Drop characters up to and including the first `'>'`; `none` if there is
no `'>'`.  This is the `.*?>` part of the `<script.*?>.*?</script>` pattern. -/
def dropUntilGt : List Char → Option (List Char)
  | [] => none
  | c :: cs => if c = '>' then some cs else dropUntilGt cs

/-- Drop characters through the first occurrence of `lit`; `none` when `lit`
does not occur.  This is the non-greedy `.*?lit` part of the pattern. -/
def dropThroughLit (lit : List Char) : List Char → Option (List Char)
  | [] => none
  | c :: cs =>
    if lit.isPrefixOf (c :: cs) then some ((c :: cs).drop lit.length)
    else dropThroughLit lit cs

/-- Given the text following an occurrence of the opening literal, find the end
of the full `openLit.*?>.*?closeLit` match (DOTALL): first `'>'`, then the
first occurrence of `closeLit` after it.  Because `closeLit` itself ends in
`'>'`, regex backtracking over later `'>'` choices can never succeed when this
first choice fails. -/
def findBlockEnd (closeLit : List Char) (l : List Char) : Option (List Char) :=
  match dropUntilGt l with
  | none => none
  | some after => dropThroughLit closeLit after

/-- Fuelled scanner for `re.sub(r'openLit.*?>.*?closeLit', '', text,
flags=re.DOTALL)`: each leftmost match is removed and scanning resumes after
it; a position where the pattern cannot complete is kept and scanning
advances one character. -/
def stripBlocksGo (openLit closeLit : List Char) : Nat → List Char → List Char
  | 0, l => l
  | _ + 1, [] => []
  | fuel + 1, c :: cs =>
    if openLit.isPrefixOf (c :: cs) then
      match findBlockEnd closeLit ((c :: cs).drop openLit.length) with
      | some rest => stripBlocksGo openLit closeLit fuel rest
      | none => c :: stripBlocksGo openLit closeLit fuel cs
    else c :: stripBlocksGo openLit closeLit fuel cs

/-- `re.sub(r'openLit.*?>.*?closeLit', '', text, flags=re.DOTALL)` with fuel
initialised to the input length (each step consumes at least one input
character). -/
def stripBlocks (openLit closeLit : List Char) (l : List Char) : List Char :=
  stripBlocksGo openLit closeLit l.length l

/-- Literal `"<script"` opener as in the pattern `<script.*?>.*?</script>`. -/
def scriptOpen : List Char := "<script".data
/-- Literal `"</script>"` closer. -/
def scriptClose : List Char := "</script>".data
/-- Literal `"<style"` opener. -/
def styleOpen : List Char := "<style".data
/-- Literal `"</style>"` closer. -/
def styleClose : List Char := "</style>".data

/-- Fuelled scanner for `re.sub(r'<br\s*/?>|<br\s*/?>', '\n', text)`: replace
every `<br>`, `<br/>`, `<br />`, ... by a newline.  After the literal `"<br"`
the greedy `\s*` consumes all whitespace; the optional `/` and the final `>`
follow.  A failed attempt keeps the character and advances one position. -/
def brToNewlineGo : Nat → List Char → List Char
  | 0, l => l
  | _ + 1, [] => []
  | fuel + 1, c :: cs =>
    if ("<br".data).isPrefixOf (c :: cs) then
      match ((c :: cs).drop 3).dropWhile isPySpace with
      | '>' :: rest => '\n' :: brToNewlineGo fuel rest
      | '/' :: '>' :: rest => '\n' :: brToNewlineGo fuel rest
      | _ => c :: brToNewlineGo fuel cs
    else c :: brToNewlineGo fuel cs

/-- `re.sub(r'<br\s*/?>|<br\s*/?>', '\n', text)` with fuel initialised to the
input length. -/
def brToNewline (l : List Char) : List Char :=
  brToNewlineGo l.length l

/-- Embedding of `utils.clean_html`: on falsy input return `""`; otherwise
remove `<script>...</script>` and `<style>...</style>` blocks, convert `<br>`
variants to newlines, and strip surrounding whitespace.  The source performs
no further transformation (no tag stripping, no entity decoding, no
whitespace collapsing). -/
def clean_html (html_text : String) : String :=
  if html_text = "" then ""
  else
    let cs := html_text.data
    let cs := stripBlocks scriptOpen scriptClose cs
    let cs := stripBlocks styleOpen styleClose cs
    let cs := brToNewline cs
    String.mk (pyStrip cs)

/-- Embedding of `LinkedinJobPipeline._clean_html`: on falsy input return
`""`; otherwise remove script and style blocks and strip.  It does not even
convert `<br>`. -/
def pipeline_clean_html (html : String) : String :=
  if html = "" then ""
  else
    let cs := html.data
    let cs := stripBlocks scriptOpen scriptClose cs
    let cs := stripBlocks styleOpen styleClose cs
    String.mk (pyStrip cs)

/-! Embedding of `utils.parse_relative_time` (src/utils/utils.py lines
43-89).  Timestamps are whole minutes; `datetime.now()` is the explicit
parameter `now`. -/

/-- Numeric value of a digit run, as Python `int(...)` reads it. -/
def natOfRun (run : List Char) : Nat :=
  run.foldl (fun a c => 10 * a + (c.toNat - 48)) 0

/-- The `\s+unit` tail of the pattern `(\d+)\s+unit`: at least one whitespace
character, then the unit literal as a prefix of what remains. -/
def spacesThenLit (unit : List Char) (l : List Char) : Bool :=
  match l with
  | [] => false
  | c :: cs => isPySpace c && unit.isPrefixOf ((c :: cs).dropWhile isPySpace)

/-- `re.search(r'(\d+)\s+unit', text)`: leftmost digit run followed by
whitespace and the unit literal; returns the run's numeric value.  The
scanner tries every start position, exactly like the regex engine; a start
inside a failing digit run fails for the same reason, so advancing one
character at a time is sound and keeps the recursion structural. -/
def searchNumUnit (unit : List Char) : List Char → Option Nat
  | [] => none
  | c :: cs =>
    if c.isDigit && spacesThenLit unit (cs.dropWhile Char.isDigit) then
      some (natOfRun (c :: cs.takeWhile Char.isDigit))
    else searchNumUnit unit cs

/-- Embedding of `parse_relative_time`: falsy text gives `none`; the text is
lowercased and stripped; the unit patterns are searched in the written order
(minute, hour, day, week, month), then the literals `just now` / `just
posted` and `yesterday`; anything else gives `none`.  A month is approximated
as 30 days; results are minutes. -/
def parse_relative_time (text : String) (now : Int) : Option Int :=
  if text = "" then none
  else
    let cs := pyStrip (text.data.map Char.toLower)
    match searchNumUnit "minute".data cs with
    | some n => some (now - n)
    | none =>
    match searchNumUnit "hour".data cs with
    | some n => some (now - n * 60)
    | none =>
    match searchNumUnit "day".data cs with
    | some n => some (now - n * 1440)
    | none =>
    match searchNumUnit "week".data cs with
    | some n => some (now - n * 10080)
    | none =>
    match searchNumUnit "month".data cs with
    | some n => some (now - 30 * n * 1440)
    | none =>
    if containsSub "just now".data cs || containsSub "just posted".data cs then some now
    else if containsSub "yesterday".data cs then some (now - 1440)
    else none

/-! Shared Python truthiness for optional strings: `None` and `""` are falsy. -/

/-- Python truthiness of an optional string value (`None` and `""` are
falsy). -/
def otruthy : Option String → Bool
  | none => false
  | some s => s ≠ ""

/-! Embedding of `SecurityManager.handle_security_challenge`
(src/linkedin_scraper/security.py lines 107-160) and the retry cap of
`LinkedinScraperDownloaderMiddleware.process_response`
(src/linkedin_scraper/middlewares.py lines 98-136). -/

/-- The handling instruction dictionary returned by
`handle_security_challenge`. -/
structure SecAction where
  action : String
  delay : ℚ
  message : String
deriving DecidableEq, Repr

/-- `random.uniform a b` with the random draw `r ∈ [0,1)` made explicit. -/
def pyUniform (a b r : ℚ) : ℚ := a + (b - a) * r

/-- Embedding of `handle_security_challenge`: classification order is
checkpoint-in-URL, then status 429, then status 999, then 4xx, then 5xx;
each returns a retry instruction with its own delay range; anything else
returns `none`. -/
def handle_security_challenge (response_url : String) (status_code : Int) (r : ℚ) :
    Option SecAction :=
  if containsSubS "checkpoint" response_url then
    some ⟨"retry", pyUniform 60 120 r, "Security checkpoint detected"⟩
  else if status_code = 429 then
    some ⟨"retry", pyUniform 300 600 r, "Rate limiting detected"⟩
  else if status_code = 999 then
    some ⟨"retry", pyUniform 120 240 r, "Anti-scraping measures detected"⟩
  else if 400 ≤ status_code ∧ status_code < 500 then
    some ⟨"retry", pyUniform 30 60 r, "Client error " ++ toString status_code⟩
  else if 500 ≤ status_code ∧ status_code < 600 then
    some ⟨"retry", pyUniform 60 120 r, "Server error " ++ toString status_code⟩
  else none

/-- The middleware's decision for a response: hand the original request back
for a retry with an incremented `retry_count`, or pass the response through
(the retry is abandoned once `retry_count` would exceed 3). -/
inductive MwDecision where
  | retryRequest (newRetryCount : Nat)
  | passResponse
deriving DecidableEq, Repr

/-- Embedding of `process_response`: when the spider has reached its job
limit the response passes through untouched; otherwise a detected security
challenge with action `"retry"` re-issues the request at most 3 times
(`retry_count` read from the request meta), and after the cap the response
passes through (the page is abandoned). -/
def mw_process_response (reached_job_limit : Bool) (response_url : String)
    (status_code : Int) (r : ℚ) (retry_count : Nat) : MwDecision :=
  if reached_job_limit then .passResponse
  else
    match handle_security_challenge response_url status_code r with
    | some act =>
      if act.action = "retry" then
        if retry_count + 1 ≤ 3 then .retryRequest (retry_count + 1)
        else .passResponse
      else .passResponse
    | none => .passResponse

/-! Embedding of `LinkedinJobPipeline._ensure_backward_compatibility`
(src/linkedin_scraper/pipelines.py lines 134-154).  Only the twelve fields
named in the mapping table are modelled; the other item fields are untouched
by the function. -/

/-- The slice of an `ItemAdapter` record that the legacy mapping reads and
writes; `none` models an absent key. -/
structure JobAdapter where
  id : Option String
  title : Option String
  companyName : Option String
  link : Option String
  descriptionText : Option String
  postedAt : Option String
  job_id : Option String
  job_title : Option String
  company_name : Option String
  job_url : Option String
  job_description : Option String
  date_posted : Option String
deriving DecidableEq, Repr

/-- First loop of `_ensure_backward_compatibility`: copy each new-name field
onto its old-name field when the new one is truthy and the old one is not,
in the table's order. -/
def ebcPass1 (a : JobAdapter) : JobAdapter :=
  let a := if otruthy a.id && !otruthy a.job_id then { a with job_id := a.id } else a
  let a := if otruthy a.title && !otruthy a.job_title then { a with job_title := a.title } else a
  let a := if otruthy a.companyName && !otruthy a.company_name then { a with company_name := a.companyName } else a
  let a := if otruthy a.link && !otruthy a.job_url then { a with job_url := a.link } else a
  let a := if otruthy a.descriptionText && !otruthy a.job_description then { a with job_description := a.descriptionText } else a
  let a := if otruthy a.postedAt && !otruthy a.date_posted then { a with date_posted := a.postedAt } else a
  a

/-- Second loop: copy each old-name field onto its new-name field when the
old one is truthy and the new one is not. -/
def ebcPass2 (a : JobAdapter) : JobAdapter :=
  let a := if otruthy a.job_id && !otruthy a.id then { a with id := a.job_id } else a
  let a := if otruthy a.job_title && !otruthy a.title then { a with title := a.job_title } else a
  let a := if otruthy a.company_name && !otruthy a.companyName then { a with companyName := a.company_name } else a
  let a := if otruthy a.job_url && !otruthy a.link then { a with link := a.job_url } else a
  let a := if otruthy a.job_description && !otruthy a.descriptionText then { a with descriptionText := a.job_description } else a
  let a := if otruthy a.date_posted && !otruthy a.postedAt then { a with postedAt := a.date_posted } else a
  a

/-- Embedding of `_ensure_backward_compatibility`: new-to-old pass followed
by old-to-new pass. -/
def ensure_backward_compatibility (a : JobAdapter) : JobAdapter :=
  ebcPass2 (ebcPass1 a)

/-! Embedding of the pipeline's item collection
(src/linkedin_scraper/pipelines.py: `__init__` lines 41-58, `process_item`
lines 74-132, `close_spider` lines 217-243). -/

/-- A collected pipeline item, reduced to the provenance markers the
pipeline itself sets; scraped items carry neither marker. -/
structure PipeItem where
  id : String
  is_test_item : Bool := false
  is_dummy_item : Bool := false
deriving DecidableEq, Repr

/-- The synthetic test item appended by `__init__` "to verify pipeline
functionality". -/
def pipelineTestItem : PipeItem := { id := "test_job_id", is_test_item := true }

/-- The items list right after `__init__`: it already holds the test item. -/
def pipelineInitItems : List PipeItem := [pipelineTestItem]

/-- `process_item` stores each processed item at the end of the collection. -/
def pipeline_process_item (items : List PipeItem) (it : PipeItem) : List PipeItem :=
  items ++ [it]

/-- The dummy job appended by `close_spider` when no real job was scraped. -/
def pipelineDummyJob : PipeItem := { id := "dummy_job_id", is_dummy_item := true }

/-- Embedding of `close_spider`: when at most one item was collected (only
the test item), a dummy job is appended before the final write. -/
def pipeline_close_spider (items : List PipeItem) : List PipeItem :=
  if items.length ≤ 1 then items ++ [pipelineDummyJob] else items

/-- One full pipeline run over the scraped items, in order: initialisation,
one `process_item` per scraped item, then `close_spider`. -/
def pipelineRun (scraped : List PipeItem) : List PipeItem :=
  pipeline_close_spider (scraped.foldl pipeline_process_item pipelineInitItems)

/-! Embedding of the defaulting tail of `parse_job_details`
(src/linkedin_scraper/spiders/linkedin_jobs.py lines 696-841): selector
extraction result, referrer-meta fallback, `.strip()` cleanup, placeholder
defaults, then overwrites from `_extract_additional_data`. -/

/-- The four record fields claim C10 is about, as the item stores them
(`none` models an absent key). -/
structure JobItemView where
  title : Option String
  companyName : Option String
  location : Option String
  descriptionText : Option String
deriving DecidableEq, Repr

/-- Lines 797-804: `if v: v = v.strip()` — truthy values are stripped,
falsy values pass through. -/
def cleanupOpt (v : Option String) : Option String :=
  match v with
  | none => none
  | some s => if s = "" then some s else some (pyStripS s)

/-- Lines 812-817: `str(v) if v else placeholder`. -/
def fieldOrPlaceholder (v : Option String) (placeholder : String) : String :=
  match v with
  | none => placeholder
  | some s => if s = "" then placeholder else s

/-- Lines 763-769: `if not v: v = response.meta.get(...)` — the selector
value wins when truthy, else the referrer metadata is used. -/
def pickExtOrMeta (ext meta : Option String) : Option String :=
  if otruthy ext then ext else meta

/-- Lines 826-831: one `additional_data` entry overwrites the item field of
the same name when the value `is not None`; keys outside the modelled view
leave it unchanged. -/
def applyAdditional (it : JobItemView) (kv : String × Option String) : JobItemView :=
  match kv.2 with
  | none => it
  | some v =>
    if kv.1 = "title" then { it with title := some v }
    else if kv.1 = "companyName" then { it with companyName := some v }
    else if kv.1 = "location" then { it with location := some v }
    else if kv.1 = "descriptionText" then { it with descriptionText := some v }
    else it

/-- The emitted item's title, companyName, location and descriptionText as
`parse_job_details` assembles them: selector value, else referrer metadata,
stripped, else the `"Unknown ..."` placeholder (the description defaults to
`""` and has no metadata fallback), then the JSON `additional_data`
overwrites. -/
def parse_job_details_fields (extTitle extCompany extLocation extDesc
    metaTitle metaCompany metaLocation : Option String)
    (additional : List (String × Option String)) : JobItemView :=
  let base : JobItemView := {
    title := some (fieldOrPlaceholder (cleanupOpt (pickExtOrMeta extTitle metaTitle)) "Unknown Title"),
    companyName := some (fieldOrPlaceholder (cleanupOpt (pickExtOrMeta extCompany metaCompany)) "Unknown Company"),
    location := some (fieldOrPlaceholder (cleanupOpt (pickExtOrMeta extLocation metaLocation)) "Unknown Location"),
    descriptionText := some (fieldOrPlaceholder (cleanupOpt extDesc) "") }
  additional.foldl applyAdditional base

/-- All four modelled item fields are present (`isSome`). -/
def viewAllSome (it : JobItemView) : Bool :=
  it.title.isSome && it.companyName.isSome && it.location.isSome && it.descriptionText.isSome

/-- Sample adapter carrying only the new-generation `title`, for evaluating
the legacy mapping. -/
def c8SampleNew : JobAdapter :=
  ⟨none, some "Engineer", none, none, none, none, none, none, none, none, none, none⟩

/-- Sample adapter carrying only the old-generation `job_id`, for evaluating
the legacy mapping. -/
def c8SampleOld : JobAdapter :=
  ⟨none, none, none, none, none, none, some "4021", none, none, none, none, none⟩

/-! Embedding of the crawl governor and deduplication logic
(src/linkedin_scraper/spiders/linkedin_jobs.py): `check_job_limit` (lines
470-479), the job-card loop of `parse_search_results` (lines 561-646,
normal mode, i.e. `collect_urls_only = False`), and `parse_job_details`
(lines 666-841) reduced to its governor/dedup effect.  The spider runs with
`CONCURRENT_REQUESTS = 1`, so callbacks execute sequentially; the machine
below interleaves listing-page callbacks, detail-page callbacks on queued
requests (in any scheduler order), and directly-enqueued detail requests
without metadata (start URLs and the card-less fallback path). -/

/-- The spider fields the governor and dedup logic read and write:
`max_jobs`, `job_count`, `reached_job_limit` and `processed_job_ids`.  The
set may contain `none`, since the Python code adds `job_id` even when URL
extraction returned `None`. -/
structure SpiderState where
  maxJobs : Nat
  jobCount : Nat
  reachedJobLimit : Bool
  processedJobIds : List (Option String)
deriving DecidableEq, Repr

/-- The spider state at crawl start: zero counters, empty dedup set. -/
def initSpiderState (maxJobs : Nat) : SpiderState :=
  ⟨maxJobs, 0, false, []⟩

/-- A pending detail-page request: `metaJobId` is the `job_id` carried in
the request meta (absent for direct/fallback requests), and `pageId` is the
id that `_extract_job_id_comprehensive` would resolve from the fetched page
itself when the meta id is falsy (non-empty by the resolver's totality). -/
structure DetailReq where
  pageId : String
  metaJobId : Option String
deriving DecidableEq, Repr

/-- One job card on a listing page: the id extracted from its link URL
(possibly `None`) and the id its detail page would resolve to. -/
structure JobCard where
  cardJobId : Option String
  pageId : String
deriving DecidableEq, Repr

/-- `self.processed_job_ids.add(x)` — idempotent set insertion. -/
def addProcessed (ids : List (Option String)) (i : Option String) : List (Option String) :=
  if ids.contains i then ids else i :: ids

/-- Embedding of `check_job_limit`: when `max_jobs > 0` and
`job_count >= max_jobs` it marks `reached_job_limit` and reports `true`
(raising `CloseSpider` on the first such call); the caller stops processing
in that case. -/
def check_job_limit (s : SpiderState) : Bool × SpiderState :=
  if 0 < s.maxJobs && s.maxJobs ≤ s.jobCount then
    (true, { s with reachedJobLimit := true })
  else (false, s)

/-- The per-card loop of `parse_search_results`: before each card the
governor is consulted (stopping the whole callback when the limit is
reached); a card whose extracted id is already in `processed_job_ids` is
skipped; otherwise the id is marked processed and a detail request carrying
it as meta `job_id` is yielded. -/
def processCards : SpiderState → List JobCard → SpiderState × List DetailReq
  | s, [] => (s, [])
  | s, card :: rest =>
    let (stop, s1) := check_job_limit s
    if stop then (s1, [])
    else if s1.processedJobIds.contains card.cardJobId then processCards s1 rest
    else
      let s2 := { s1 with processedJobIds := addProcessed s1.processedJobIds card.cardJobId }
      let (s3, reqs) := processCards s2 rest
      (s3, ⟨card.pageId, card.cardJobId⟩ :: reqs)

/-- Embedding of `parse_search_results` (normal mode, governor/dedup
effect): entry `check_job_limit`, then the card loop.  The company-jobs
listing callback (`parse_company_jobs_page`, lines 375-468) follows the
same check/dedup/enqueue shape and is covered by the same model. -/
def parse_search_results (s : SpiderState) (cards : List JobCard) :
    SpiderState × List DetailReq :=
  let (stop, s1) := check_job_limit s
  if stop then (s1, []) else processCards s1 cards

/-- The id `parse_job_details` works with: the meta `job_id` when truthy
(method 1 of `_extract_job_id_comprehensive`), else the page-resolved id. -/
def jobIdOf (r : DetailReq) : String :=
  match r.metaJobId with
  | some m => if m ≠ "" then m else r.pageId
  | none => r.pageId

/-- Embedding of `parse_job_details` reduced to its governor/dedup effect:
return early when the limit is reached (the downloader middleware also
cancels the fetch in that case); skip when the id is already processed and
differs from the meta `job_id`; otherwise mark it processed, increment
`job_count`, set `reached_job_limit` when the count reaches `max_jobs`, and
emit the record. -/
def parse_job_details_step (s : SpiderState) (r : DetailReq) :
    SpiderState × Option String :=
  if s.reachedJobLimit then (s, none)
  else
    let jid := jobIdOf r
    if s.processedJobIds.contains (some jid) && (r.metaJobId != some jid) then (s, none)
    else
      let s1 := { s with processedJobIds := addProcessed s.processedJobIds (some jid) }
      let s2 := { s1 with jobCount := s1.jobCount + 1 }
      let s3 := if 0 < s2.maxJobs && s2.maxJobs ≤ s2.jobCount then
          { s2 with reachedJobLimit := true }
        else s2
      (s3, some jid)

/-- A crawl configuration: spider state, the queue of detail requests not
yet processed, and the emitted record ids in emission order. -/
structure CrawlConfig where
  s : SpiderState
  pending : List DetailReq
  emitted : List String
deriving DecidableEq, Repr

/-- One sequential callback execution: a listing page whose cards are
enumerated (enqueueing detail requests), a detail-page callback on any
pending request (any scheduler order), or a direct detail request enqueued
without meta `job_id` (start URLs, card-less fallback path). -/
inductive CrawlStep : CrawlConfig → CrawlConfig → Prop
  | listing (cfg : CrawlConfig) (cards : List JobCard) :
      CrawlStep cfg ⟨(parse_search_results cfg.s cards).1,
                     cfg.pending ++ (parse_search_results cfg.s cards).2,
                     cfg.emitted⟩
  | detail (s : SpiderState) (l1 l2 : List DetailReq) (r : DetailReq) (emitted : List String) :
      CrawlStep ⟨s, l1 ++ r :: l2, emitted⟩
                ⟨(parse_job_details_step s r).1, l1 ++ l2,
                 emitted ++ (parse_job_details_step s r).2.toList⟩
  | direct (cfg : CrawlConfig) (pageId : String) :
      CrawlStep cfg ⟨cfg.s, cfg.pending ++ [⟨pageId, none⟩], cfg.emitted⟩

/-- Configurations reachable in a crawl run with the given `max_jobs`. -/
inductive CrawlReachable (maxJobs : Nat) : CrawlConfig → Prop
  | init : CrawlReachable maxJobs ⟨initSpiderState maxJobs, [], []⟩
  | step {c c' : CrawlConfig} :
      CrawlReachable maxJobs c → CrawlStep c c' → CrawlReachable maxJobs c'

/-- FIFO executor over a detail-request queue, used for the concrete
limit-enforcement scenario (the spec's assumed order-preserving
scheduler). -/
def runQueue : SpiderState → List DetailReq → SpiderState × List String
  | s, [] => (s, [])
  | s, r :: rest =>
    let (s1, e) := parse_job_details_step s r
    let (s2, es) := runQueue s1 rest
    (s2, e.toList ++ es)

/-- The invariant carried through every crawl step: counters agree with the
emitted sequence, emitted ids and pending meta ids are recorded in the dedup
set, pending meta ids are pairwise distinct and unemitted, and the job
counter respects the limit, with `reached_job_limit` set as soon as it is
hit. -/
def CrawlInv (maxJobs : Nat) (c : CrawlConfig) : Prop :=
  c.s.maxJobs = maxJobs ∧
  c.emitted.Nodup ∧
  (∀ id ∈ c.emitted, some id ∈ c.s.processedJobIds) ∧
  (∀ r ∈ c.pending, ∀ m : String, r.metaJobId = some m → some m ∈ c.s.processedJobIds) ∧
  (c.pending.filterMap DetailReq.metaJobId).Nodup ∧
  (∀ r ∈ c.pending, ∀ m : String, r.metaJobId = some m → m ∉ c.emitted) ∧
  c.emitted.length = c.s.jobCount ∧
  (0 < maxJobs → c.s.jobCount ≤ maxJobs ∧ (c.s.jobCount = maxJobs → c.s.reachedJobLimit = true))

/-- The listing page of the limit-enforcement scenario: candidate ids
`[A, B, C]` in that order. -/
def c2Cards : List JobCard := [⟨some "A", "A"⟩, ⟨some "B", "B"⟩, ⟨some "C", "C"⟩]

/-- The scenario's listing callback at crawl start with `maxJobs = 2`. -/
def c2Listing : SpiderState × List DetailReq :=
  parse_search_results (initSpiderState 2) c2Cards

/-- A crawl configuration reached after the scenario listing plus one detail
callback (record A emitted). -/
def c1cfg : CrawlConfig :=
  ⟨⟨2, 1, false, [some "C", some "B", some "A"]⟩,
   [⟨"B", some "B"⟩, ⟨"C", some "C"⟩], ["A"]⟩

/-- A crawl configuration reached after the scenario listing plus two detail
callbacks (records A and B emitted, limit reached). -/
def c3cfg : CrawlConfig :=
  ⟨⟨2, 2, true, [some "C", some "B", some "A"]⟩,
   [⟨"C", some "C"⟩], ["A", "B"]⟩


/-! Embedding of the job-id resolver: `_extract_job_id_from_url` (lines
986-1018), `_extract_job_id_from_json` (lines 1020-1057), the script scan
and fallback of `_extract_job_id_comprehensive` (lines 914-984), all in
src/linkedin_scraper/spiders/linkedin_jobs.py. -/

/-! URL pattern scanners -/

def searchLitThenDigits (lit : List Char) : List Char → Option String
  | [] => none
  | c :: cs =>
    if lit.isPrefixOf (c :: cs) then
      let rest := (c :: cs).drop lit.length
      let run := rest.takeWhile Char.isDigit
      if run.isEmpty then searchLitThenDigits lit cs
      else some (String.mk run)
    else searchLitThenDigits lit cs

def searchHyphenLongDigits : List Char → Option String
  | [] => none
  | c :: cs =>
    if c = '-' then
      let run := cs.takeWhile Char.isDigit
      if run.length ≥ 10 then some (String.mk run)
      else searchHyphenLongDigits cs
    else searchHyphenLongDigits cs

def searchJobParamAfter : List Char → Option String
  | [] => none
  | c :: cs =>
    if c = '\n' then none
    else
      let l := c :: cs
      if ("viewJob=".data).isPrefixOf l then
        let run := (l.drop 8).takeWhile Char.isDigit
        if run.isEmpty then searchJobParamAfter cs else some (String.mk run)
      else if ("jobId=".data).isPrefixOf l then
        let run := (l.drop 6).takeWhile Char.isDigit
        if run.isEmpty then searchJobParamAfter cs else some (String.mk run)
      else searchJobParamAfter cs

def searchSearchFormat : List Char → Option String
  | [] => none
  | c :: cs =>
    if ("linkedin.com/jobs/search/".data).isPrefixOf (c :: cs) then
      match searchJobParamAfter ((c :: cs).drop 25) with
      | some r => some r
      | none => searchSearchFormat cs
    else searchSearchFormat cs

/-! Query-string fallback (urlparse + parse_qs) -/

def hexVal (c : Char) : Option Nat :=
  if c.isDigit then some (c.toNat - 48)
  else if 'a' ≤ c && c ≤ 'f' then some (c.toNat - 87)
  else if 'A' ≤ c && c ≤ 'F' then some (c.toNat - 55)
  else none

def pyUnquote : List Char → List Char
  | [] => []
  | '%' :: a :: b :: rest =>
    match hexVal a, hexVal b with
    | some ha, some hb => Char.ofNat (16 * ha + hb) :: pyUnquote rest
    | _, _ => '%' :: pyUnquote (a :: b :: rest)
  | c :: rest => c :: pyUnquote rest
termination_by l => l.length
decreasing_by all_goals simp_arith

def plusToSpace (l : List Char) : List Char :=
  l.map (fun c => if c = '+' then ' ' else c)

def beforeFirst (sep : Char) (l : List Char) : List Char :=
  l.takeWhile (· ≠ sep)

def afterFirst (sep : Char) : List Char → Option (List Char)
  | [] => none
  | c :: cs => if c = sep then some cs else afterFirst sep cs

/-- `urlparse(url).query`: the part after the first `'?'` and before the
first `'#'`. -/
def urlQuery (url : List Char) : List Char :=
  match afterFirst '?' (beforeFirst '#' url) with
  | some q => q
  | none => []

/-- Python `str.split(sep)` for a one-character separator. -/
def splitOnChar (sep : Char) : List Char → List (List Char)
  | [] => [[]]
  | c :: cs =>
    match splitOnChar sep cs with
    | [] => [[c]]
    | g :: gs => if c = sep then [] :: g :: gs else (c :: g) :: gs

def splitOnAmp (l : List Char) : List (List Char) :=
  splitOnChar '&' l

/-- `urllib.parse.parse_qsl` with default options: split on `&`, drop fields
without `=` and fields with empty value, replace `+` by space and
percent-decode names and values. -/
def parseQsl (query : List Char) : List (String × String) :=
  (splitOnAmp query).filterMap (fun field =>
    if field.isEmpty then none
    else
      match afterFirst '=' field with
      | none => none
      | some v =>
        if v.isEmpty then none
        else
          some (String.mk (pyUnquote (plusToSpace (beforeFirst '=' field))),
                String.mk (pyUnquote (plusToSpace v))))

def queryParamLookup (pairs : List (String × String)) (name : String) : Option String :=
  (pairs.find? (fun p => p.1 = name)).map (·.2)

def queryParamFallback (url : List Char) : Option String :=
  let pairs := parseQsl (urlQuery url)
  match queryParamLookup pairs "jobId" with
  | some v => some v
  | none =>
  match queryParamLookup pairs "currentJobId" with
  | some v => some v
  | none =>
  match queryParamLookup pairs "viewJob" with
  | some v => some v
  | none => queryParamLookup pairs "id"

/-- Embedding of `_extract_job_id_from_url`: the ordered URL patterns, then
the query-parameter fallback. -/
def extract_job_id_from_url (url : String) : Option String :=
  if url = "" then none
  else
    let cs := url.data
    match searchLitThenDigits "view/".data cs with
    | some v => some v
    | none =>
    match searchLitThenDigits "currentJobId=".data cs with
    | some v => some v
    | none =>
    match searchLitThenDigits "jobId=".data cs with
    | some v => some v
    | none =>
    match searchLitThenDigits "jobs/".data cs with
    | some v => some v
    | none =>
    match searchHyphenLongDigits cs with
    | some v => some v
    | none =>
    match searchSearchFormat cs with
    | some v => some v
    | none => queryParamFallback cs


/-! Embedded-JSON model and `_extract_job_id_from_json` -/

inductive Jv where
  | null
  | jbool (b : Bool)
  | jint (n : Int)
  | jstr (s : String)
  | jarr (xs : List Jv)
  | jobj (fields : List (String × Jv))

def jvTruthy : Jv → Bool
  | .null => false
  | .jbool b => b
  | .jint n => n != 0
  | .jstr s => s ≠ ""
  | .jarr xs => !xs.isEmpty
  | .jobj fs => !fs.isEmpty

def jvIsIntLike : Jv → Bool
  | .jint _ => true
  | .jbool _ => true
  | _ => false

def jvGet (fs : List (String × Jv)) (k : String) : Option Jv :=
  (fs.find? (fun p => p.1 = k)).map (·.2)

def jvNav : Jv → List String → Option Jv
  | j, [] => some j
  | .jobj fs, p :: ps =>
    match jvGet fs p with
    | some v => jvNav v ps
    | none => none
  | _, _ :: _ => none

def hasDigitS (s : String) : Bool :=
  s.data.any Char.isDigit

def lastColonSeg (s : String) : String :=
  String.mk ((splitOnChar ':' s.data).getLastD [])

def pyStrOfJv : Jv → String
  | .jint n => toString n
  | .jbool true => "True"
  | .jbool false => "False"
  | _ => ""

def idFromJvVal (v : Jv) : Option String :=
  if jvTruthy v && (jvIsIntLike v || (match v with | .jstr s => hasDigitS s | _ => false)) then
    match v with
    | .jstr s => if containsSubS ":" s then some (lastColonSeg s) else some s
    | _ => some (pyStrOfJv v)
  else none

def jsonIdPaths : List String :=
  ["data.jobPostingInfo.jobPostingId", "jobPostingInfo.jobPostingId",
   "data.jobPostingId", "jobPostingId", "data.jobData.jobPostingId",
   "jobData.jobPostingId", "entityUrn"]

def firstSome {α β : Type} (f : α → Option β) : List α → Option β
  | [] => none
  | x :: xs =>
    match f x with
    | some b => some b
    | none => firstSome f xs

/-- Embedding of `_extract_job_id_from_json`: probe the dotted paths in
order; a value passes when it is truthy and an int (or bool) or a string
containing a digit; a string with `':'` yields its last colon segment. -/
def extract_job_id_from_json (fields : List (String × Jv)) : Option String :=
  if fields.isEmpty then none
  else
    firstSome (fun path =>
        match jvNav (.jobj fields) ((splitOnChar '.' path.data).map String.mk) with
        | some v => idFromJvVal v
        | none => none)
      jsonIdPaths


/-! Script scan (`method 6`) -/

def isIdClassChar (c : Char) : Bool :=
  c = '"' || isPySpace c || c = ':' || c = '='

/-- The `["\s:=]+["\']?(\d+)` tail of the script id patterns: at least one
class character (greedy), an optional quote, then the digit group. -/
def idAfter (rest : List Char) : Option String :=
  let run := rest.takeWhile isIdClassChar
  if run.isEmpty then none
  else
    match rest.dropWhile isIdClassChar with
    | [] => none
    | d :: ds =>
      if d.isDigit then some (String.mk (d :: ds.takeWhile Char.isDigit))
      else if d = '\x27' then
        match ds with
        | e :: es => if e.isDigit then some (String.mk (e :: es.takeWhile Char.isDigit)) else none
        | [] => none
      else none

def searchIdPattern (alts : List (List Char)) : List Char → Option String
  | [] => none
  | c :: cs =>
    match firstSome (fun lit =>
        if lit.isPrefixOf (c :: cs) then idAfter ((c :: cs).drop lit.length) else none) alts with
    | some v => some v
    | none => searchIdPattern alts cs

def scriptIdPatterns : List (List (List Char)) :=
  [["jobId".data],
   ["jobPostingId".data, "jobPostingid".data],
   ["jobId".data, "jobid".data]]

/-- Embedding of method 6 of `_extract_job_id_comprehensive`: scripts whose
text contains "jobId" or "jobPosting" are scanned, per script each pattern
in order, first match wins. -/
def extract_job_id_from_scripts (scripts : List String) : Option String :=
  firstSome (fun script =>
      firstSome (fun alts => searchIdPattern alts script.data) scriptIdPatterns)
    (scripts.filter (fun s => containsSubS "jobId" s || containsSubS "jobPosting" s))


/-! MD5 (RFC 1321), as `hashlib.md5` computes it, over `Nat` words reduced
modulo `2^32`. -/

def m32 (x : Nat) : Nat := x % 4294967296

def rotl32 (x s : Nat) : Nat := m32 (x * 2 ^ s + x / 2 ^ (32 - s))

def bnot32 (x : Nat) : Nat := Nat.xor x 4294967295

def md5F (b c d : Nat) : Nat := Nat.lor (Nat.land b c) (Nat.land (bnot32 b) d)
def md5G (b c d : Nat) : Nat := Nat.lor (Nat.land d b) (Nat.land (bnot32 d) c)
def md5H (b c d : Nat) : Nat := Nat.xor b (Nat.xor c d)
def md5I (b c d : Nat) : Nat := Nat.xor c (Nat.lor b (bnot32 d))

def md5K : List Nat :=
  [0xd76aa478, 0xe8c7b756, 0x242070db, 0xc1bdceee,
   0xf57c0faf, 0x4787c62a, 0xa8304613, 0xfd469501,
   0x698098d8, 0x8b44f7af, 0xffff5bb1, 0x895cd7be,
   0x6b901122, 0xfd987193, 0xa679438e, 0x49b40821,
   0xf61e2562, 0xc040b340, 0x265e5a51, 0xe9b6c7aa,
   0xd62f105d, 0x02441453, 0xd8a1e681, 0xe7d3fbc8,
   0x21e1cde6, 0xc33707d6, 0xf4d50d87, 0x455a14ed,
   0xa9e3e905, 0xfcefa3f8, 0x676f02d9, 0x8d2a4c8a,
   0xfffa3942, 0x8771f681, 0x6d9d6122, 0xfde5380c,
   0xa4beea44, 0x4bdecfa9, 0xf6bb4b60, 0xbebfbc70,
   0x289b7ec6, 0xeaa127fa, 0xd4ef3085, 0x04881d05,
   0xd9d4d039, 0xe6db99e5, 0x1fa27cf8, 0xc4ac5665,
   0xf4292244, 0x432aff97, 0xab9423a7, 0xfc93a039,
   0x655b59c3, 0x8f0ccc92, 0xffeff47d, 0x85845dd1,
   0x6fa87e4f, 0xfe2ce6e0, 0xa3014314, 0x4e0811a1,
   0xf7537e82, 0xbd3af235, 0x2ad7d2bb, 0xeb86d391]

def md5S : List Nat :=
  [7, 12, 17, 22, 7, 12, 17, 22, 7, 12, 17, 22, 7, 12, 17, 22,
   5, 9, 14, 20, 5, 9, 14, 20, 5, 9, 14, 20, 5, 9, 14, 20,
   4, 11, 16, 23, 4, 11, 16, 23, 4, 11, 16, 23, 4, 11, 16, 23,
   6, 10, 15, 21, 6, 10, 15, 21, 6, 10, 15, 21, 6, 10, 15, 21]

def md5Round (M : List Nat) (st : Nat × Nat × Nat × Nat) (i : Nat) :
    Nat × Nat × Nat × Nat :=
  let (a, b, c, d) := st
  let f :=
    if i < 16 then md5F b c d
    else if i < 32 then md5G b c d
    else if i < 48 then md5H b c d
    else md5I b c d
  let g :=
    if i < 16 then i
    else if i < 32 then (5 * i + 1) % 16
    else if i < 48 then (3 * i + 5) % 16
    else (7 * i) % 16
  let x := m32 (a + f + md5K.getD i 0 + M.getD g 0)
  (d, m32 (b + rotl32 x (md5S.getD i 0)), b, c)

def wordLE (bytes : List Nat) : Nat :=
  bytes.getD 0 0 + 256 * bytes.getD 1 0 + 65536 * bytes.getD 2 0 + 16777216 * bytes.getD 3 0

def md5Block (st : Nat × Nat × Nat × Nat) (block : List Nat) : Nat × Nat × Nat × Nat :=
  let M := (List.range 16).map (fun k => wordLE (block.drop (4 * k)))
  let (a, b, c, d) := (List.range 64).foldl (md5Round M) st
  let (a0, b0, c0, d0) := st
  (m32 (a0 + a), m32 (b0 + b), m32 (c0 + c), m32 (d0 + d))

def md5Chunks : Nat → (Nat × Nat × Nat × Nat) → List Nat → Nat × Nat × Nat × Nat
  | 0, st, _ => st
  | _ + 1, st, [] => st
  | fuel + 1, st, l => md5Chunks fuel (md5Block st (l.take 64)) (l.drop 64)

def md5Pad (msg : List Nat) : List Nat :=
  let z := (64 + 56 - (msg.length + 1) % 64) % 64
  msg ++ 128 :: List.replicate z 0 ++
    ((List.range 8).map (fun k => msg.length * 8 / 256 ^ k % 256))

def bytesLE4 (w : Nat) : List Nat :=
  [w % 256, w / 256 % 256, w / 65536 % 256, w / 16777216 % 256]

def hexDigitChar (n : Nat) : Char :=
  if n < 10 then Char.ofNat (48 + n) else Char.ofNat (87 + n)

def byteHex (b : Nat) : List Char :=
  [hexDigitChar (b / 16), hexDigitChar (b % 16)]

/-- `hashlib.md5(bytes).hexdigest()`. -/
def md5hex (msg : List Nat) : String :=
  let padded := md5Pad msg
  let (a, b, c, d) := md5Chunks (padded.length + 1) (0x67452301, 0xefcdab89, 0x98badcfe, 0x10325476) padded
  String.mk (([a, b, c, d].map bytesLE4).flatten.map byteHex).flatten

/-- UTF-8 encoding of one character, as Python `str.encode()` produces it. -/
def utf8Bytes (c : Char) : List Nat :=
  let n := c.toNat
  if n < 128 then [n]
  else if n < 2048 then [192 + n / 64, 128 + n % 64]
  else if n < 65536 then [224 + n / 4096, 128 + n / 64 % 64, 128 + n % 64]
  else [240 + n / 262144, 128 + n / 4096 % 64, 128 + n / 64 % 64, 128 + n % 64]

/-- `str.encode()`: the UTF-8 bytes of a string. -/
def strBytes (s : String) : List Nat :=
  s.data.flatMap utf8Bytes


/-! The resolver chain (`_extract_job_id_comprehensive`) -/

/-- The inputs `_extract_job_id_comprehensive` draws on: the meta `job_id`,
the response URL, the first `[data-job-id]` attribute, the canonical link,
the embedded-JSON object already extracted by `_extract_json_data`, and the
script texts. -/
structure ResolverInput where
  metaJobId : Option String
  url : String
  dataJobId : Option String
  canonicalUrl : Option String
  jsonFields : List (String × Jv)
  scripts : List String

/-- Methods 1-6 of `_extract_job_id_comprehensive` in order, each guarded by
`if not job_id` (Python truthiness: `None` and `""` fall through). -/
def strategyChain (inp : ResolverInput) : Option String :=
  let j := inp.metaJobId
  let j := if otruthy j then j else extract_job_id_from_url inp.url
  let j := if otruthy j then j
    else if otruthy inp.dataJobId then inp.dataJobId else j
  let j := if otruthy j then j
    else match inp.canonicalUrl with
      | some cu => if cu ≠ "" then extract_job_id_from_url cu else j
      | none => j
  let j := if otruthy j then j
    else if inp.jsonFields.isEmpty then j else extract_job_id_from_json inp.jsonFields
  let j := if otruthy j then j
    else match extract_job_id_from_scripts inp.scripts with
      | some v => some v
      | none => j
  j

/-- Embedding of `_extract_job_id_comprehensive`: the strategy chain, and
when no method produced a truthy id, the deterministic fallback
`"gen-" ++ md5(url)[:10]`. -/
def extract_job_id_comprehensive (inp : ResolverInput) : String :=
  match strategyChain inp with
  | some s => if s = "" then "gen-" ++ (md5hex (strBytes inp.url)).take 10 else s
  | none => "gen-" ++ (md5hex (strBytes inp.url)).take 10

/-! Helper lemmas -/

theorem digit_toLower (c : Char) (h : c.isDigit = true) : c.toLower = c := by
  simp only [Char.isDigit, ge_iff_le, Bool.and_eq_true, decide_eq_true_eq] at h
  have h2 : c.val.toNat ≤ 57 := h.2
  rw [Char.toLower]
  simp only [ge_iff_le]
  rw [if_neg]
  simp only [Char.toNat]
  omega

theorem digit_not_space (c : Char) (h : c.isDigit = true) : isPySpace c = false := by
  simp only [Char.isDigit, ge_iff_le, Bool.and_eq_true, decide_eq_true_eq] at h
  have h1 : 48 ≤ c.val.toNat := h.1
  have h2 : c.val.toNat ≤ 57 := h.2
  simp only [isPySpace, Bool.or_eq_false_iff, decide_eq_false_iff_not]
  refine ⟨⟨⟨⟨⟨?_, ?_⟩, ?_⟩, ?_⟩, ?_⟩, ?_⟩ <;> intro hc <;> subst hc <;> simp_all

theorem map_toLower_digits (ds : List Char) (h : ∀ c ∈ ds, c.isDigit = true) :
    ds.map Char.toLower = ds := by
  induction ds with
  | nil => rfl
  | cons d ds ih =>
    simp only [List.map_cons, digit_toLower d (h d (by simp)),
      ih (fun c hc => h c (by simp [hc])), List.cons.injEq, and_self]

theorem pyStrip_digits_months (ds : List Char) (hne : ds ≠ [])
    (hds : ∀ c ∈ ds, c.isDigit = true) :
    pyStrip (ds ++ " months ago".data) = ds ++ " months ago".data := by
  cases ds with
  | nil => exact absurd rfl hne
  | cons d ds =>
    have hd : isPySpace d = false := digit_not_space d (hds d (by simp))
    have h1 : ((d :: ds) ++ " months ago".data).dropWhile isPySpace
        = (d :: ds) ++ " months ago".data := by
      simp [List.dropWhile, hd]
    have h2 : ((d :: ds) ++ " months ago".data).reverse
        = 'o' :: ("ga shtnom ".data ++ (d :: ds).reverse) := by
      rw [List.reverse_append]
      have : (" months ago".data).reverse = 'o' :: "ga shtnom ".data := by decide
      rw [this]
      simp
    have h3 : ('o' :: ("ga shtnom ".data ++ (d :: ds).reverse)).dropWhile isPySpace
        = 'o' :: ("ga shtnom ".data ++ (d :: ds).reverse) := by
      simp [List.dropWhile, isPySpace]
    unfold pyStrip
    rw [h1, h2, h3, ← h2, List.reverse_reverse]

theorem takeWhile_digits_append (ds tail : List Char)
    (hds : ∀ c ∈ ds, c.isDigit = true)
    (htail : ∀ c cs, tail = c :: cs → c.isDigit = false) :
    (ds ++ tail).takeWhile Char.isDigit = ds ∧
    (ds ++ tail).dropWhile Char.isDigit = tail := by
  induction ds with
  | nil =>
    simp only [List.nil_append]
    cases tail with
    | nil => simp
    | cons c cs =>
      have := htail c cs rfl
      simp [List.takeWhile, List.dropWhile, this]
  | cons d ds ih =>
    have hd := hds d (by simp)
    have ih' := ih (fun c hc => hds c (by simp [hc]))
    simp only [List.cons_append, List.takeWhile, List.dropWhile, hd]
    simp [ih'.1, ih'.2]

theorem searchNumUnit_run (unit ds tail : List Char)
    (hne : ds ≠ [])
    (hds : ∀ c ∈ ds, c.isDigit = true)
    (htail : ∀ c cs, tail = c :: cs → c.isDigit = false) :
    searchNumUnit unit (ds ++ tail) =
      if spacesThenLit unit tail then some (natOfRun ds)
      else searchNumUnit unit tail := by
  induction ds with
  | nil => exact absurd rfl hne
  | cons d ds ih =>
    have hd : d.isDigit = true := hds d (by simp)
    have hrest : (ds ++ tail).dropWhile Char.isDigit = tail :=
      (takeWhile_digits_append ds tail (fun c hc => hds c (by simp [hc])) htail).2
    have htake : (ds ++ tail).takeWhile Char.isDigit = ds :=
      (takeWhile_digits_append ds tail (fun c hc => hds c (by simp [hc])) htail).1
    have hstep : searchNumUnit unit ((d :: ds) ++ tail) =
        if d.isDigit && spacesThenLit unit ((ds ++ tail).dropWhile Char.isDigit) then
          some (natOfRun (d :: (ds ++ tail).takeWhile Char.isDigit))
        else searchNumUnit unit (ds ++ tail) := rfl
    rw [hstep, hrest, htake, hd]
    by_cases hsp : spacesThenLit unit tail
    · simp [hsp]
    · simp only [hsp, Bool.and_false, Bool.false_eq_true, if_false]
      cases ds with
      | nil => simp [hsp]
      | cons d' ds' =>
        rw [ih (by simp) (fun c hc => hds c (by simp [hc]))]
        simp [hsp]

theorem month_general (now : Int) (ds : List Char) (hne : ds ≠ [])
    (hds : ∀ c ∈ ds, c.isDigit = true) :
    parse_relative_time (String.mk (ds ++ " months ago".data)) now
      = some (now - 30 * natOfRun ds * 1440) := by
  have htail : ∀ c cs, " months ago".data = c :: cs → c.isDigit = false := by
    intro c cs h
    have : c = ' ' := by
      have h0 : " months ago".data = ' ' :: "months ago".data := rfl
      rw [h0] at h
      exact (List.cons.injEq _ _ _ _ ▸ h).1.symm
    subst this; decide
  have hempty : String.mk (ds ++ " months ago".data) ≠ "" := by
    cases ds with
    | nil => exact absurd rfl hne
    | cons d ds => simp [String.ext_iff]
  rw [parse_relative_time, if_neg hempty]
  have hdata : (String.mk (ds ++ " months ago".data)).data = ds ++ " months ago".data := rfl
  rw [hdata]
  have hmap : (ds ++ " months ago".data).map Char.toLower = ds ++ " months ago".data := by
    rw [List.map_append, map_toLower_digits ds hds]
    have : (" months ago".data).map Char.toLower = " months ago".data := by decide
    rw [this]
  rw [hmap, pyStrip_digits_months ds hne hds]
  dsimp only
  rw [searchNumUnit_run "minute".data ds _ hne hds htail]
  rw [if_neg (by decide)]
  rw [searchNumUnit_run "hour".data ds _ hne hds htail]
  rw [if_neg (by decide)]
  rw [searchNumUnit_run "day".data ds _ hne hds htail]
  rw [if_neg (by decide)]
  rw [searchNumUnit_run "week".data ds _ hne hds htail]
  rw [if_neg (by decide)]
  rw [searchNumUnit_run "month".data ds _ hne hds htail]
  rw [if_pos (by decide)]
  have h1 : searchNumUnit "minute".data " months ago".data = none := by decide
  have h2 : searchNumUnit "hour".data " months ago".data = none := by decide
  have h3 : searchNumUnit "day".data " months ago".data = none := by decide
  have h4 : searchNumUnit "week".data " months ago".data = none := by decide
  rw [h1, h2, h3, h4]

theorem containsSub_of_prefix (pat l : List Char) (h : pat.isPrefixOf l = true) :
    containsSub pat l = true := by
  cases l with
  | nil =>
    cases pat with
    | nil => rfl
    | cons p ps => simp [List.isPrefixOf] at h
  | cons c cs => simp [containsSub, h]

theorem containsSub_of_suffix (pat l' l : List Char) (hs : l' <:+ l)
    (h : containsSub pat l' = true) : containsSub pat l = true := by
  induction l with
  | nil =>
    rw [List.suffix_nil] at hs
    subst hs; exact h
  | cons c cs ih =>
    rcases List.suffix_cons_iff.mp hs with h1 | h2
    · subst h1; exact h
    · simp [containsSub, ih h2]

theorem searchNumUnit_some_contains (unit l : List Char) (n : Nat)
    (h : searchNumUnit unit l = some n) : containsSub unit l = true := by
  induction l with
  | nil => simp [searchNumUnit] at h
  | cons c cs ih =>
    rw [searchNumUnit] at h
    split at h
    · rename_i hcond
      have hsp : spacesThenLit unit (cs.dropWhile Char.isDigit) = true :=
        (Bool.and_eq_true _ _ ▸ hcond).2
      set rest := cs.dropWhile Char.isDigit with hrest
      have hsub : containsSub unit rest = true := by
        cases hr : rest with
        | nil => rw [hr] at hsp; simp [spacesThenLit] at hsp
        | cons a as =>
          rw [hr] at hsp
          simp only [spacesThenLit, Bool.and_eq_true] at hsp
          have hpre := hsp.2
          have := containsSub_of_prefix unit ((a :: as).dropWhile isPySpace) hpre
          exact containsSub_of_suffix unit _ _ (List.dropWhile_suffix isPySpace) this
      have : containsSub unit cs = true :=
        containsSub_of_suffix unit rest cs (hrest ▸ List.dropWhile_suffix Char.isDigit) hsub
      simp [containsSub, this]
    · simp [containsSub, ih h]

theorem unparseable_none (text : String) (now : Int)
    (h : ∀ pat ∈ ["minute", "hour", "day", "week", "month", "just now", "just posted", "yesterday"],
      containsSub pat.data (pyStrip (text.data.map Char.toLower)) = false) :
    parse_relative_time text now = none := by
  by_cases he : text = ""
  · simp [parse_relative_time, he]
  · rw [parse_relative_time, if_neg he]
    dsimp only
    set cs := pyStrip (text.data.map Char.toLower) with hcs
    have hnone : ∀ unit ∈ ["minute", "hour", "day", "week", "month"],
        searchNumUnit (String.data unit) cs = none := by
      intro unit hu
      cases hsu : searchNumUnit unit.data cs with
      | none => rfl
      | some n =>
        have := searchNumUnit_some_contains unit.data cs n hsu
        have hfalse := h unit (by simp at hu ⊢; tauto)
        rw [hfalse] at this
        exact absurd this (by simp)
    rw [hnone "minute" (by simp), hnone "hour" (by simp), hnone "day" (by simp),
        hnone "week" (by simp), hnone "month" (by simp)]
    rw [h "just now" (by simp), h "just posted" (by simp), h "yesterday" (by simp)]
    simp

/-! Claim C4: HTML cleaning -/

/-- C4 counterexample: the HTML cleaning function applied to
`"<div class='description__text'>A<br>B</div></section>"` does not return
`"A\nB"`: the code strips script/style blocks and converts `<br>` but never
strips other tags, decodes entities, or collapses whitespace. -/
theorem c4_clean_html_counterexample :
    clean_html "<div class=\x27description__text\x27>A<br>B</div></section>" ≠ "A\nB" := by
  decide

/-- C4 amended: on that input `utils.clean_html` only converts `<br>` to a
newline, returning `"<div class='description__text'>A\nB</div></section>"`,
and the pipeline's `_clean_html` returns the input unchanged; neither strips
remaining tags, decodes HTML entities, converts list items, or collapses
whitespace runs. -/
theorem c4_clean_html_actual :
    clean_html "<div class=\x27description__text\x27>A<br>B</div></section>"
      = "<div class=\x27description__text\x27>A\nB</div></section>" ∧
    pipeline_clean_html "<div class=\x27description__text\x27>A<br>B</div></section>"
      = "<div class=\x27description__text\x27>A<br>B</div></section>" := by
  exact ⟨by decide, by decide⟩

/-! Claim C5: relative-time parsing -/

/-- C5: `parse_relative_time` maps "2 days ago" to `now` minus 48 hours,
"yesterday" to `now` minus 24 hours, the empty string to `none`, any digit
string followed by " months ago" to `now` minus `30 * m` days where `m` is
the digit string's value, and returns `none` on any input containing no
recognized unit keyword or literal, never a guessed timestamp. -/
theorem c5_relative_time_parse :
    (∀ now : Int, parse_relative_time "2 days ago" now = some (now - 48 * 60)) ∧
    (∀ now : Int, parse_relative_time "yesterday" now = some (now - 24 * 60)) ∧
    (∀ now : Int, parse_relative_time "" now = none) ∧
    (∀ (now : Int) (ds : List Char), ds ≠ [] → (∀ c ∈ ds, c.isDigit = true) →
      parse_relative_time (String.mk (ds ++ " months ago".data)) now
        = some (now - 30 * natOfRun ds * 1440)) ∧
    (∀ (text : String) (now : Int),
      (∀ pat ∈ ["minute", "hour", "day", "week", "month", "just now", "just posted", "yesterday"],
        containsSub pat.data (pyStrip (text.data.map Char.toLower)) = false) →
      parse_relative_time text now = none) :=
  ⟨fun _ => rfl, fun _ => rfl, fun _ => rfl,
   fun now ds h1 h2 => month_general now ds h1 h2,
   fun text now h => unparseable_none text now h⟩

/-- C5 witness: the month clause evaluated at the digit string "3" and the
unparseable clause evaluated at "tomorrow soon". -/
theorem c5_relative_time_parse_witness :
    parse_relative_time (String.mk ("3".data ++ " months ago".data)) 200000
      = some (200000 - 30 * natOfRun "3".data * 1440) ∧
    parse_relative_time "tomorrow soon" 5 = none :=
  ⟨c5_relative_time_parse.2.2.2.1 200000 "3".data (by decide) (by decide),
   c5_relative_time_parse.2.2.2.2 "tomorrow soon" 5 (by decide)⟩

/-! Claim C6: challenge backoff -/

/-- C6 counterexample: a fetch that returns status 999 on a URL containing
"checkpoint" is classified by the checkpoint branch first, and the
recommended delay (here with random draw 1/2) is 90 seconds, which is not in
the claimed interval `[120, 240)`. -/
theorem c6_challenge_backoff_counterexample :
    handle_security_challenge "https://www.linkedin.com/checkpoint/challenge" 999 (1/2)
      = some ⟨"retry", 90, "Security checkpoint detected"⟩ ∧
    ¬((120:ℚ) ≤ 90) := by
  constructor
  · rw [handle_security_challenge, if_pos (by decide)]
    norm_num [pyUniform]
  · norm_num

/-- C6 amended: when a fetch returns status 999 and the response URL does
not contain "checkpoint", the SecurityManager classifies it as an
anti-scraping challenge and recommends a retry whose delay `120 + 120*r`
lies in `[120, 240)` for every random draw `r ∈ [0,1)`, and the middleware
retries the same logical request at most 3 times (incrementing the request's
retry count) before passing the response through, abandoning the retry. -/
theorem c6_challenge_backoff (url : String) (status : Int) (r : ℚ) (k : Nat)
    (hurl : containsSubS "checkpoint" url = false) (h999 : status = 999)
    (hr0 : 0 ≤ r) (hr1 : r < 1) :
    handle_security_challenge url status r
      = some ⟨"retry", pyUniform 120 240 r, "Anti-scraping measures detected"⟩ ∧
    120 ≤ pyUniform 120 240 r ∧ pyUniform 120 240 r < 240 ∧
    (k < 3 → mw_process_response false url status r k = .retryRequest (k + 1)) ∧
    (3 ≤ k → mw_process_response false url status r k = .passResponse) := by
  subst h999
  have hch : handle_security_challenge url 999 r
      = some ⟨"retry", pyUniform 120 240 r, "Anti-scraping measures detected"⟩ := by
    rw [handle_security_challenge, if_neg (by simp [hurl]), if_neg (by decide), if_pos rfl]
  refine ⟨hch, ?_, ?_, ?_, ?_⟩
  · simp only [pyUniform]; nlinarith
  · simp only [pyUniform]; nlinarith
  · intro hk
    rw [mw_process_response]
    simp only [Bool.false_eq_true, if_false, hch]
    simp only [if_true]
    rw [if_pos (by omega)]
  · intro hk
    rw [mw_process_response]
    simp only [Bool.false_eq_true, if_false, hch]
    simp only [if_true]
    rw [if_neg (by omega)]

/-- C6 witness: the amended statement evaluated on a job-view URL with
status 999, random draw `1/3`, and retry count 0. -/
theorem c6_challenge_backoff_witness :
    handle_security_challenge "https://www.linkedin.com/jobs/view/123" 999 (1/3)
      = some ⟨"retry", pyUniform 120 240 (1/3), "Anti-scraping measures detected"⟩ ∧
    120 ≤ pyUniform 120 240 (1/3) ∧ pyUniform 120 240 (1/3) < 240 ∧
    (0 < 3 → mw_process_response false "https://www.linkedin.com/jobs/view/123" 999 (1/3) 0
      = .retryRequest 1) ∧
    (3 ≤ 0 → mw_process_response false "https://www.linkedin.com/jobs/view/123" 999 (1/3) 0
      = .passResponse) :=
  c6_challenge_backoff "https://www.linkedin.com/jobs/view/123" 999 (1/3) 0
    (by decide) rfl (by norm_num) (by norm_num)

/-! Claim C8: bidirectional legacy field mapping -/

/-- C8: for every pair in the fixed legacy mapping table, if exactly one
side is populated (truthy) before reconciliation, afterwards the other side
carries the same value and both field-name generations agree. -/
theorem c8_legacy_symmetry (a : JobAdapter) :
    (otruthy a.id = true → otruthy a.job_id = false →
      (ensure_backward_compatibility a).job_id = a.id ∧
      (ensure_backward_compatibility a).id = a.id) ∧
    (otruthy a.job_id = true → otruthy a.id = false →
      (ensure_backward_compatibility a).id = a.job_id ∧
      (ensure_backward_compatibility a).job_id = a.job_id) ∧
    (otruthy a.title = true → otruthy a.job_title = false →
      (ensure_backward_compatibility a).job_title = a.title ∧
      (ensure_backward_compatibility a).title = a.title) ∧
    (otruthy a.job_title = true → otruthy a.title = false →
      (ensure_backward_compatibility a).title = a.job_title ∧
      (ensure_backward_compatibility a).job_title = a.job_title) ∧
    (otruthy a.companyName = true → otruthy a.company_name = false →
      (ensure_backward_compatibility a).company_name = a.companyName ∧
      (ensure_backward_compatibility a).companyName = a.companyName) ∧
    (otruthy a.company_name = true → otruthy a.companyName = false →
      (ensure_backward_compatibility a).companyName = a.company_name ∧
      (ensure_backward_compatibility a).company_name = a.company_name) ∧
    (otruthy a.link = true → otruthy a.job_url = false →
      (ensure_backward_compatibility a).job_url = a.link ∧
      (ensure_backward_compatibility a).link = a.link) ∧
    (otruthy a.job_url = true → otruthy a.link = false →
      (ensure_backward_compatibility a).link = a.job_url ∧
      (ensure_backward_compatibility a).job_url = a.job_url) ∧
    (otruthy a.descriptionText = true → otruthy a.job_description = false →
      (ensure_backward_compatibility a).job_description = a.descriptionText ∧
      (ensure_backward_compatibility a).descriptionText = a.descriptionText) ∧
    (otruthy a.job_description = true → otruthy a.descriptionText = false →
      (ensure_backward_compatibility a).descriptionText = a.job_description ∧
      (ensure_backward_compatibility a).job_description = a.job_description) ∧
    (otruthy a.postedAt = true → otruthy a.date_posted = false →
      (ensure_backward_compatibility a).date_posted = a.postedAt ∧
      (ensure_backward_compatibility a).postedAt = a.postedAt) ∧
    (otruthy a.date_posted = true → otruthy a.postedAt = false →
      (ensure_backward_compatibility a).postedAt = a.date_posted ∧
      (ensure_backward_compatibility a).date_posted = a.date_posted) := by
  refine ⟨?_, ?_, ?_, ?_, ?_, ?_, ?_, ?_, ?_, ?_, ?_, ?_⟩ <;>
  · intro h1 h2
    simp only [ensure_backward_compatibility, ebcPass1, ebcPass2, h1, h2,
      Bool.not_false, Bool.and_true, Bool.true_and, Bool.and_false, Bool.false_and,
      if_true, if_false,
      apply_ite JobAdapter.id, apply_ite JobAdapter.job_id, apply_ite JobAdapter.title,
      apply_ite JobAdapter.job_title, apply_ite JobAdapter.companyName,
      apply_ite JobAdapter.company_name, apply_ite JobAdapter.link,
      apply_ite JobAdapter.job_url, apply_ite JobAdapter.descriptionText,
      apply_ite JobAdapter.job_description, apply_ite JobAdapter.postedAt,
      apply_ite JobAdapter.date_posted, ite_self, apply_ite otruthy]
    simp [h1, h2]

/-- C8 witness: a record with only `title` set gets `job_title` populated
with the same value, and a record with only `job_id` set gets `id`
populated with the same value. -/
theorem c8_legacy_symmetry_witness :
    ((ensure_backward_compatibility c8SampleNew).job_title = c8SampleNew.title ∧
      (ensure_backward_compatibility c8SampleNew).title = c8SampleNew.title) ∧
    ((ensure_backward_compatibility c8SampleOld).id = c8SampleOld.job_id ∧
      (ensure_backward_compatibility c8SampleOld).job_id = c8SampleOld.job_id) :=
  ⟨(c8_legacy_symmetry c8SampleNew).2.2.1 (by decide) (by decide),
   (c8_legacy_symmetry c8SampleOld).2.1 (by decide) (by decide)⟩

/-! Claim C9: the collected-items list is never purely scraped records -/

theorem pipeline_foldl_append (init l : List PipeItem) :
    l.foldl pipeline_process_item init = init ++ l := by
  induction l generalizing init with
  | nil => simp
  | cons x xs ih => simp [pipeline_process_item, ih]

/-- C9: for every run, the pipeline's collected list is initialised with the
synthetic test item (id "test_job_id", flagged `is_test_item`); that item is
still in the final output, so the output is never a pure sequence of scraped
records; and when no real item was collected, `close_spider` appends the
dummy job as well. -/
theorem c9_pipeline_never_pure (scraped : List PipeItem)
    (h : ∀ it ∈ scraped, it.is_test_item = false ∧ it.is_dummy_item = false) :
    pipelineInitItems = [pipelineTestItem] ∧
    pipelineTestItem.id = "test_job_id" ∧
    pipelineTestItem.is_test_item = true ∧
    pipelineTestItem ∈ pipelineRun scraped ∧
    (∃ it ∈ pipelineRun scraped, it ∉ scraped) ∧
    (scraped = [] → pipelineRun scraped = [pipelineTestItem, pipelineDummyJob]) ∧
    pipelineRun scraped ≠ scraped := by
  have hrun : pipelineRun scraped
      = pipeline_close_spider (pipelineTestItem :: scraped) := by
    rw [pipelineRun, pipeline_foldl_append]
    rfl
  have hmem : pipelineTestItem ∈ pipelineRun scraped := by
    rw [hrun, pipeline_close_spider]
    split <;> simp
  have hnot : pipelineTestItem ∉ scraped := by
    intro hc
    have := (h pipelineTestItem hc).1
    simp [pipelineTestItem] at this
  refine ⟨rfl, rfl, rfl, hmem, ⟨pipelineTestItem, hmem, hnot⟩, ?_, ?_⟩
  · intro hs
    subst hs
    rfl
  · intro hc
    rw [hc] at hmem
    exact hnot hmem

/-- C9 witness: one scraped item still yields an output containing the test
item, and an empty run yields exactly the test item plus the dummy job. -/
theorem c9_pipeline_never_pure_witness :
    pipelineTestItem ∈ pipelineRun [{ id := "123" }] ∧
    pipelineRun [] = [pipelineTestItem, pipelineDummyJob] :=
  ⟨(c9_pipeline_never_pure [{ id := "123" }] (by decide)).2.2.2.1,
   (c9_pipeline_never_pure [] (by decide)).2.2.2.2.2.1 rfl⟩

/-! Claim C10: emitted detail records carry placeholders, never nulls -/

theorem applyAdditional_preserves (it : JobItemView) (kv : String × Option String)
    (h : viewAllSome it = true) : viewAllSome (applyAdditional it kv) = true := by
  rcases kv with ⟨k, v⟩
  cases v with
  | none => exact h
  | some s =>
    simp only [applyAdditional]
    split
    · simp_all [viewAllSome]
    · split
      · simp_all [viewAllSome]
      · split
        · simp_all [viewAllSome]
        · split
          · simp_all [viewAllSome]
          · exact h

theorem foldl_additional_preserves (l : List (String × Option String)) (it : JobItemView)
    (h : viewAllSome it = true) : viewAllSome (l.foldl applyAdditional it) = true := by
  induction l generalizing it with
  | nil => exact h
  | cons kv kvs ih => exact ih _ (applyAdditional_preserves it kv h)

theorem falsy_placeholder (v : Option String) (h : otruthy v = false) (ph : String) :
    fieldOrPlaceholder (cleanupOpt v) ph = ph := by
  cases v with
  | none => rfl
  | some s =>
    simp only [otruthy, ne_eq, decide_eq_false_iff_not, not_not] at h
    subst h
    rfl

/-- C10: every record emitted from a detail page has non-null title,
companyName, location and descriptionText; and when the selectors, the
referrer metadata and the embedded JSON all yield nothing, the three fields
are the placeholder strings and the description defaults to `""`. -/
theorem c10_placeholder_defaults :
    (∀ extT extC extL extD mT mC mL additional,
      (parse_job_details_fields extT extC extL extD mT mC mL additional).title.isSome = true ∧
      (parse_job_details_fields extT extC extL extD mT mC mL additional).companyName.isSome = true ∧
      (parse_job_details_fields extT extC extL extD mT mC mL additional).location.isSome = true ∧
      (parse_job_details_fields extT extC extL extD mT mC mL additional).descriptionText.isSome = true) ∧
    (∀ extT extC extL extD mT mC mL,
      otruthy extT = false → otruthy mT = false →
      otruthy extC = false → otruthy mC = false →
      otruthy extL = false → otruthy mL = false →
      otruthy extD = false →
      parse_job_details_fields extT extC extL extD mT mC mL []
        = ⟨some "Unknown Title", some "Unknown Company", some "Unknown Location", some ""⟩) := by
  constructor
  · intro extT extC extL extD mT mC mL additional
    have h : viewAllSome ((parse_job_details_fields extT extC extL extD mT mC mL additional)) = true := by
      rw [parse_job_details_fields]
      exact foldl_additional_preserves additional _ (by simp [viewAllSome])
    simp [viewAllSome] at h
    tauto
  · intro extT extC extL extD mT mC mL h1 h2 h3 h4 h5 h6 h7
    have p1 : pickExtOrMeta extT mT = mT := by simp [pickExtOrMeta, h1]
    have p2 : pickExtOrMeta extC mC = mC := by simp [pickExtOrMeta, h3]
    have p3 : pickExtOrMeta extL mL = mL := by simp [pickExtOrMeta, h5]
    rw [parse_job_details_fields]
    simp only [List.foldl_nil, p1, p2, p3]
    rw [falsy_placeholder mT h2, falsy_placeholder mC h4, falsy_placeholder mL h6,
        falsy_placeholder extD h7]

/-- C10 witness: the all-nothing case evaluated concretely. -/
theorem c10_placeholder_defaults_witness :
    parse_job_details_fields none none none none none none none []
      = ⟨some "Unknown Title", some "Unknown Company", some "Unknown Location", some ""⟩ :=
  c10_placeholder_defaults.2 none none none none none none none rfl rfl rfl rfl rfl rfl rfl

theorem addProcessed_mem (ids : List (Option String)) (i x : Option String)
    (h : x ∈ ids) : x ∈ addProcessed ids i := by
  rw [addProcessed]
  split
  · exact h
  · exact List.mem_cons_of_mem _ h

theorem addProcessed_self (ids : List (Option String)) (i : Option String) :
    i ∈ addProcessed ids i := by
  rw [addProcessed]
  split
  · rename_i h
    exact List.mem_of_elem_eq_true h
  · exact List.mem_cons_self _ _

theorem processCards_spec (cards : List JobCard) (s : SpiderState) :
    (processCards s cards).1.maxJobs = s.maxJobs ∧
    (processCards s cards).1.jobCount = s.jobCount ∧
    (s.reachedJobLimit = true → (processCards s cards).1.reachedJobLimit = true) ∧
    (∀ x ∈ s.processedJobIds, x ∈ (processCards s cards).1.processedJobIds) ∧
    (∀ r ∈ (processCards s cards).2, ∀ m : String, r.metaJobId = some m →
        some m ∈ (processCards s cards).1.processedJobIds ∧ some m ∉ s.processedJobIds) ∧
    ((processCards s cards).2.filterMap DetailReq.metaJobId).Nodup := by
  induction cards generalizing s with
  | nil => simp [processCards]
  | cons card rest ih =>
    rw [processCards]
    rcases hcl : check_job_limit s with ⟨stop, s1⟩
    have hs1 : s1.maxJobs = s.maxJobs ∧ s1.jobCount = s.jobCount ∧
        s1.processedJobIds = s.processedJobIds ∧
        (s.reachedJobLimit = true → s1.reachedJobLimit = true) := by
      rw [check_job_limit] at hcl
      split at hcl <;> (cases hcl; simp)
    by_cases hstop : stop = true
    · subst hstop
      simp only [if_true]
      refine ⟨hs1.1, hs1.2.1, hs1.2.2.2, ?_, ?_, ?_⟩
      · intro x hx; rw [hs1.2.2.1]; exact hx
      · intro r hr; simp at hr
      · simp
    · have hstop' : stop = false := by cases stop <;> simp_all
      subst hstop'
      simp only [Bool.false_eq_true, if_false]
      by_cases hcont : s1.processedJobIds.contains card.cardJobId = true
      · simp only [hcont, if_true]
        have ihs := ih s1
        refine ⟨by rw [ihs.1, hs1.1], by rw [ihs.2.1, hs1.2.1], ?_, ?_, ?_, ihs.2.2.2.2.2⟩
        · intro h; exact ihs.2.2.1 (hs1.2.2.2 h)
        · intro x hx
          exact ihs.2.2.2.1 x (hs1.2.2.1 ▸ hx)
        · intro r hr m hm
          have := ihs.2.2.2.2.1 r hr m hm
          exact ⟨this.1, by rw [← hs1.2.2.1]; exact this.2⟩
      · simp only [hcont, if_false]
        set s2 := { s1 with processedJobIds := addProcessed s1.processedJobIds card.cardJobId } with hs2
        rcases hrec : processCards s2 rest with ⟨s3, reqs⟩
        have ihs := ih s2
        rw [hrec] at ihs
        simp only [hrec]
        have hmax : s3.maxJobs = s.maxJobs := by
          have := ihs.1; simp [hs2] at this; rw [this, hs1.1]
        have hcount : s3.jobCount = s.jobCount := by
          have := ihs.2.1; simp [hs2] at this; rw [this, hs1.2.1]
        refine ⟨hmax, hcount, ?_, ?_, ?_, ?_⟩
        · intro h
          exact ihs.2.2.1 (by simp [hs2]; exact hs1.2.2.2 h)
        · intro x hx
          refine ihs.2.2.2.1 x ?_
          simp [hs2]
          exact addProcessed_mem _ _ _ (hs1.2.2.1 ▸ hx)
        · intro r hr m hm
          rcases List.mem_cons.mp hr with h1 | h2
          · subst h1
            simp at hm
            constructor
            · refine ihs.2.2.2.1 _ ?_
              simp [hs2]
              rw [hm]
              exact addProcessed_self _ _
            · rw [← hs1.2.2.1, ← hm]
              intro hc
              exact hcont (List.elem_eq_true_of_mem hc)
          · have := ihs.2.2.2.2.1 r h2 m hm
            refine ⟨this.1, ?_⟩
            intro hc
            apply this.2
            simp [hs2]
            exact addProcessed_mem _ _ _ (hs1.2.2.1 ▸ hc)
        · simp only [Bool.false_eq_true, if_false]
          cases hcj : card.cardJobId with
          | none =>
            simpa [List.filterMap_cons, hcj] using ihs.2.2.2.2.2
          | some m =>
            rw [show List.filterMap DetailReq.metaJobId ((⟨card.pageId, some m⟩ : DetailReq) :: reqs)
                = m :: List.filterMap DetailReq.metaJobId reqs from by simp [List.filterMap_cons]]
            rw [List.nodup_cons]
            refine ⟨?_, ihs.2.2.2.2.2⟩
            intro hmem
            rcases List.mem_filterMap.mp hmem with ⟨r, hr, hrm⟩
            have := (ihs.2.2.2.2.1 r hr m hrm).2
            apply this
            simp [hs2]
            rw [← hcj]
            exact addProcessed_self _ _

theorem parse_search_results_spec (s : SpiderState) (cards : List JobCard) :
    (parse_search_results s cards).1.maxJobs = s.maxJobs ∧
    (parse_search_results s cards).1.jobCount = s.jobCount ∧
    (s.reachedJobLimit = true → (parse_search_results s cards).1.reachedJobLimit = true) ∧
    (∀ x ∈ s.processedJobIds, x ∈ (parse_search_results s cards).1.processedJobIds) ∧
    (∀ r ∈ (parse_search_results s cards).2, ∀ m : String, r.metaJobId = some m →
        some m ∈ (parse_search_results s cards).1.processedJobIds ∧
        some m ∉ s.processedJobIds) ∧
    ((parse_search_results s cards).2.filterMap DetailReq.metaJobId).Nodup := by
  rw [parse_search_results]
  rcases hcl : check_job_limit s with ⟨stop, s1⟩
  have hs1 : s1.maxJobs = s.maxJobs ∧ s1.jobCount = s.jobCount ∧
      s1.processedJobIds = s.processedJobIds ∧
      (s.reachedJobLimit = true → s1.reachedJobLimit = true) := by
    rw [check_job_limit] at hcl
    split at hcl <;> (cases hcl; simp)
  by_cases hstop : stop = true
  · subst hstop
    simp only [if_true]
    refine ⟨hs1.1, hs1.2.1, hs1.2.2.2, ?_, ?_, ?_⟩
    · intro x hx; rw [hs1.2.2.1]; exact hx
    · intro r hr; simp at hr
    · simp
  · have hstop' : stop = false := by cases stop <;> simp_all
    subst hstop'
    simp only [Bool.false_eq_true, if_false]
    have hps := processCards_spec cards s1
    refine ⟨by rw [hps.1, hs1.1], by rw [hps.2.1, hs1.2.1], ?_, ?_, ?_, hps.2.2.2.2.2⟩
    · intro h; exact hps.2.2.1 (hs1.2.2.2 h)
    · intro x hx; exact hps.2.2.2.1 x (hs1.2.2.1 ▸ hx)
    · intro r hr m hm
      have := hps.2.2.2.2.1 r hr m hm
      exact ⟨this.1, by rw [← hs1.2.2.1]; exact this.2⟩

theorem crawl_step_preserves (maxJobs : Nat) {c c' : CrawlConfig}
    (hstep : CrawlStep c c') (ih : CrawlInv maxJobs c) : CrawlInv maxJobs c' := by
  obtain ⟨ih1, ih2, ih3, ih4, ih5, ih6, ih7, ih8⟩ := ih
  cases hstep with
  | listing cfg cards =>
    have sp := parse_search_results_spec c.s cards
    refine ⟨by rw [sp.1, ih1], ih2, ?_, ?_, ?_, ?_, ?_, ?_⟩
    · intro id hid
      exact sp.2.2.2.1 _ (ih3 id hid)
    · intro r hr' m hm
      rcases List.mem_append.mp hr' with h1 | h2
      · exact sp.2.2.2.1 _ (ih4 r h1 m hm)
      · exact (sp.2.2.2.2.1 r h2 m hm).1
    · show ((c.pending ++ (parse_search_results c.s cards).2).filterMap
        DetailReq.metaJobId).Nodup
      rw [List.filterMap_append, List.nodup_append]
      refine ⟨ih5, sp.2.2.2.2.2, ?_⟩
      intro m hm1 hm2
      rcases List.mem_filterMap.mp hm1 with ⟨r1, hr1, hrm1⟩
      rcases List.mem_filterMap.mp hm2 with ⟨r2, hr2, hrm2⟩
      have hin := ih4 r1 hr1 m hrm1
      have hout := (sp.2.2.2.2.1 r2 hr2 m hrm2).2
      exact hout hin
    · intro r hr' m hm
      rcases List.mem_append.mp hr' with h1 | h2
      · exact ih6 r h1 m hm
      · intro hmem
        exact (sp.2.2.2.2.1 r h2 m hm).2 (ih3 m hmem)
    · rw [ih7, sp.2.1]
    · intro hpos
      obtain ⟨hle, hset⟩ := ih8 hpos
      refine ⟨by rw [sp.2.1]; exact hle, ?_⟩
      intro heq
      rw [sp.2.1] at heq
      exact sp.2.2.1 (hset heq)
  | detail s l1 l2 r emitted =>
    simp only at ih1 ih2 ih3 ih4 ih5 ih6 ih7 ih8
    by_cases hre : s.reachedJobLimit = true
    · have hstep0 : parse_job_details_step s r = (s, none) := by
        rw [parse_job_details_step, if_pos hre]
      rw [hstep0]
      have hsub : (l1 ++ l2).Sublist (l1 ++ r :: l2) :=
        List.Sublist.append_left (List.sublist_cons_self r l2) l1
      refine ⟨ih1, by simpa using ih2, ?_, ?_, ?_, ?_, by simpa using ih7, ih8⟩
      · intro id hid
        exact ih3 id (by simpa using hid)
      · intro r' hr' m hm
        exact ih4 r' (hsub.mem hr') m hm
      · exact (hsub.filterMap DetailReq.metaJobId).nodup ih5
      · intro r' hr' m hm
        have := ih6 r' (hsub.mem hr') m hm
        simpa using this
    · have hre' : s.reachedJobLimit = false := by simpa using hre
      by_cases hskip :
          (s.processedJobIds.contains (some (jobIdOf r)) && (r.metaJobId != some (jobIdOf r))) = true
      · have hstep0 : parse_job_details_step s r = (s, none) := by
          rw [parse_job_details_step, if_neg (by simp [hre'])]
          dsimp only
          rw [if_pos hskip]
        rw [hstep0]
        have hsub : (l1 ++ l2).Sublist (l1 ++ r :: l2) :=
          List.Sublist.append_left (List.sublist_cons_self r l2) l1
        refine ⟨ih1, by simpa using ih2, ?_, ?_, ?_, ?_, by simpa using ih7, ih8⟩
        · intro id hid
          exact ih3 id (by simpa using hid)
        · intro r' hr' m hm
          exact ih4 r' (hsub.mem hr') m hm
        · exact (hsub.filterMap DetailReq.metaJobId).nodup ih5
        · intro r' hr' m hm
          have := ih6 r' (hsub.mem hr') m hm
          simpa using this
      · -- emission case
        set jid := jobIdOf r with hjid
        have hsplit : s.processedJobIds.contains (some jid) = false ∨ r.metaJobId = some jid := by
          by_cases hc : s.processedJobIds.contains (some jid) = true
          · right
            by_cases hb : r.metaJobId = some jid
            · exact hb
            · exfalso
              apply hskip
              rw [hc]
              simp only [Bool.true_and]
              simpa [bne_iff_ne] using hb
          · left
            cases hcc : s.processedJobIds.contains (some jid)
            · rfl
            · exact absurd hcc hc
        have hnotem : jid ∉ emitted := by
          rcases hsplit with hfresh | hmeta
          · intro hc
            have hcontains : s.processedJobIds.contains (some jid) = true :=
              List.elem_eq_true_of_mem (ih3 jid hc)
            exact absurd (hfresh.symm.trans hcontains) (by simp)
          · exact ih6 r (by simp) jid hmeta
        set s1 := { s with processedJobIds := addProcessed s.processedJobIds (some jid) } with hs1
        set s2 := { s1 with jobCount := s1.jobCount + 1 } with hs2
        have hstep0 : parse_job_details_step s r =
            (if 0 < s2.maxJobs && s2.maxJobs <= s2.jobCount then
                { s2 with reachedJobLimit := true } else s2, some jid) := by
          rw [parse_job_details_step, if_neg (by simp [hre'])]
          dsimp only
          rw [if_neg (by simpa using hskip)]
        rw [hstep0]
        have hsub : (l1 ++ l2).Sublist (l1 ++ r :: l2) :=
          List.Sublist.append_left (List.sublist_cons_self r l2) l1
        set s3 := if 0 < s2.maxJobs && s2.maxJobs <= s2.jobCount then
            { s2 with reachedJobLimit := true } else s2 with hs3
        have hs3max : s3.maxJobs = s.maxJobs := by
          rw [hs3]; split <;> simp [hs2, hs1]
        have hs3count : s3.jobCount = s.jobCount + 1 := by
          rw [hs3]; split <;> simp [hs2, hs1]
        have hs3proc : s3.processedJobIds = addProcessed s.processedJobIds (some jid) := by
          rw [hs3]; split <;> simp [hs2, hs1]
        have hmeta_ne : ∀ r' ∈ l1 ++ l2, ∀ m : String, r'.metaJobId = some m → m ≠ jid := by
          intro r' hr' m hm
          rcases hsplit with hfresh | hmeta
          · intro hc
            subst hc
            have hcontains : s.processedJobIds.contains (some jid) = true :=
              List.elem_eq_true_of_mem (ih4 r' (hsub.mem hr') jid hm)
            exact absurd (hfresh.symm.trans hcontains) (by simp)
          · intro hc
            subst hc
            have hfm : (l1 ++ r :: l2).filterMap DetailReq.metaJobId
                = l1.filterMap DetailReq.metaJobId ++ jid :: l2.filterMap DetailReq.metaJobId := by
              rw [List.filterMap_append, List.filterMap_cons, hmeta]
            rw [hfm, List.nodup_append] at ih5
            have hnotin : jid ∉ l1.filterMap DetailReq.metaJobId ∧
                jid ∉ l2.filterMap DetailReq.metaJobId := by
              constructor
              · intro hc2
                exact ih5.2.2 hc2 (List.mem_cons_self _ _)
              · exact (List.nodup_cons.mp ih5.2.1).1
            rcases List.mem_append.mp hr' with h1 | h2
            · exact hnotin.1 (List.mem_filterMap.mpr ⟨r', h1, hm⟩)
            · exact hnotin.2 (List.mem_filterMap.mpr ⟨r', h2, hm⟩)
        refine ⟨by rw [hs3max, ih1], ?_, ?_, ?_, ?_, ?_, ?_, ?_⟩
        · rw [List.nodup_append]
          refine ⟨ih2, List.nodup_singleton jid, ?_⟩
          intro a ha hb
          simp at hb
          subst hb
          exact hnotem ha
        · intro id hid
          rw [hs3proc]
          rcases List.mem_append.mp hid with h1 | h2
          · exact addProcessed_mem _ _ _ (ih3 id h1)
          · simp at h2
            subst h2
            exact addProcessed_self _ _
        · intro r' hr' m hm
          rw [hs3proc]
          exact addProcessed_mem _ _ _ (ih4 r' (hsub.mem hr') m hm)
        · exact (hsub.filterMap DetailReq.metaJobId).nodup ih5
        · intro r' hr' m hm
          intro hc
          rcases List.mem_append.mp hc with h1 | h2
          · exact ih6 r' (hsub.mem hr') m hm h1
          · simp at h2
            exact hmeta_ne r' hr' m hm h2
        · simp [hs3count, ih7]
        · intro hpos
          obtain ⟨hle, hset⟩ := ih8 hpos
          have hlt : s.jobCount < maxJobs := by
            rcases Nat.lt_or_ge s.jobCount maxJobs with h | h
            · exact h
            · exfalso
              have heq : s.jobCount = maxJobs := Nat.le_antisymm hle h
              rw [hset heq] at hre'
              simp at hre'
          constructor
          · rw [hs3count]; omega
          · intro heq
            rw [hs3]
            have hcond : (0 < s2.maxJobs && s2.maxJobs <= s2.jobCount) = true := by
              have hm2 : s2.maxJobs = s.maxJobs := by simp [hs2, hs1]
              have hc2 : s2.jobCount = s.jobCount + 1 := by simp [hs2, hs1]
              rw [hm2, hc2, ih1]
              simp only [Bool.and_eq_true, decide_eq_true_eq]
              rw [hs3count] at heq
              omega
            rw [if_pos hcond]
  | direct cfg pageId =>
    refine ⟨ih1, ih2, ih3, ?_, ?_, ?_, ih7, ih8⟩
    · intro r' hr' m hm
      rcases List.mem_append.mp hr' with h1 | h2
      · exact ih4 r' h1 m hm
      · simp at h2
        subst h2
        simp at hm
    · show ((c.pending ++ [(⟨pageId, none⟩ : DetailReq)]).filterMap DetailReq.metaJobId).Nodup
      rw [List.filterMap_append]
      have hnil : List.filterMap DetailReq.metaJobId [(⟨pageId, none⟩ : DetailReq)] = [] := rfl
      rw [hnil, List.append_nil]
      exact ih5
    · intro r' hr' m hm
      rcases List.mem_append.mp hr' with h1 | h2
      · exact ih6 r' h1 m hm
      · simp at h2
        subst h2
        simp at hm

theorem crawl_inv (maxJobs : Nat) (c : CrawlConfig) (h : CrawlReachable maxJobs c) :
    CrawlInv maxJobs c := by
  induction h with
  | init =>
    refine ⟨rfl, by simp, by simp [initSpiderState], by simp, by simp, by simp, rfl, ?_⟩
    intro hpos
    simp only [initSpiderState]
    exact ⟨Nat.zero_le _, fun heq => absurd heq (by omega)⟩
  | step hr hstep ih => exact crawl_step_preserves maxJobs hstep ih

/-! Claims C1, C2, C3: limit governor and deduplication -/

/-- C1: in every reachable crawl configuration with `maxJobs = N > 0`, the
number of emitted records is at most `N`, however many candidate jobs the
listing pages supply, and the job counter never exceeds `maxJobs` after the
post-emission check. -/
theorem c1_bounded_output (maxJobs : Nat) (c : CrawlConfig)
    (h : CrawlReachable maxJobs c) (hpos : 0 < maxJobs) :
    c.emitted.length ≤ maxJobs ∧ c.s.jobCount ≤ maxJobs := by
  have inv := crawl_inv maxJobs c h
  have h8 := inv.2.2.2.2.2.2.2 hpos
  exact ⟨by rw [inv.2.2.2.2.2.2.1]; exact h8.1, h8.1⟩

/-- C1 witness: the bound evaluated on a concrete reachable configuration
(listing `[A, B, C]` with `maxJobs = 2`, one record emitted). -/
theorem c1_bounded_output_witness :
    c1cfg.emitted.length ≤ 2 ∧ c1cfg.s.jobCount ≤ 2 :=
  c1_bounded_output 2 c1cfg
    (CrawlReachable.step
      (CrawlReachable.step CrawlReachable.init
        (CrawlStep.listing ⟨initSpiderState 2, [], []⟩ c2Cards))
      (CrawlStep.detail (parse_search_results (initSpiderState 2) c2Cards).1 []
        [⟨"B", some "B"⟩, ⟨"C", some "C"⟩] ⟨"A", some "A"⟩ []))
    (by decide)

/-- C3: in every reachable crawl configuration, each id present in the
emitted sequence is carried by exactly one record: the dedup set is
consulted at enqueue time and again at emission time, so an id discovered
through two different paths is emitted at most once. -/
theorem c3_unique_emission (maxJobs : Nat) (c : CrawlConfig) (h : CrawlReachable maxJobs c) :
    ∀ id ∈ c.emitted, c.emitted.count id = 1 := by
  intro id hid
  exact List.count_eq_one_of_mem (crawl_inv maxJobs c h).2.1 hid

/-- C3 witness: uniqueness evaluated on a concrete reachable configuration
with two emitted records. -/
theorem c3_unique_emission_witness : c3cfg.emitted.count "A" = 1 :=
  c3_unique_emission 2 c3cfg
    (CrawlReachable.step
      (CrawlReachable.step
        (CrawlReachable.step CrawlReachable.init
          (CrawlStep.listing ⟨initSpiderState 2, [], []⟩ c2Cards))
        (CrawlStep.detail (parse_search_results (initSpiderState 2) c2Cards).1 []
          [⟨"B", some "B"⟩, ⟨"C", some "C"⟩] ⟨"A", some "A"⟩ []))
      (CrawlStep.detail c1cfg.s [] [⟨"C", some "C"⟩] ⟨"B", some "B"⟩ ["A"]))
    "A" (by decide)

/-- C2 counterexample: with candidate ids `[A, B, C]` and `maxJobs = 2`,
the listing callback issues the detail request for C while
`reached_job_limit` is still false — the governor has not transitioned to
its limit-reached state before the request for C is issued. -/
theorem c2_limit_enforcement_counterexample :
    (⟨"C", some "C"⟩ : DetailReq) ∈ c2Listing.2 ∧ c2Listing.1.reachedJobLimit = false := by
  decide

/-- C2 amended: with candidate ids `[A, B, C]` and `maxJobs = 2`, exactly
the records for A and B are emitted and the governor reaches its limit state
after B; the detail request for C is enqueued while still running, but once
the limit is reached its callback does nothing (the downloader middleware
also cancels the fetch), so no record for C is produced. -/
theorem c2_limit_enforcement_amended :
    (runQueue c2Listing.1 c2Listing.2).2 = ["A", "B"] ∧
    (runQueue c2Listing.1 c2Listing.2).1.reachedJobLimit = true ∧
    (runQueue c2Listing.1 c2Listing.2).1.jobCount = 2 ∧
    parse_job_details_step (runQueue c2Listing.1 [⟨"A", some "A"⟩, ⟨"B", some "B"⟩]).1
        ⟨"C", some "C"⟩
      = ((runQueue c2Listing.1 [⟨"A", some "A"⟩, ⟨"B", some "B"⟩]).1, none) := by
  decide

/-! Claim C7: resolver totality and fallback determinism -/

theorem gen_ne_empty (x : String) : ("gen-" ++ x) ≠ "" := by
  intro h
  have : ("gen-" ++ x).data = "".data := by rw [h]
  rw [String.data_append] at this
  simp at this

/-- C7: the resolver is total (never returns an empty/absent id), and when
every strategy fails the result is the synthetic prefixed fallback
`"gen-" ++ md5(url)[:10]`, a function of the URL alone — equal URLs give
equal ids regardless of every other input. -/
theorem c7_resolver_total_deterministic :
    (∀ inp : ResolverInput, extract_job_id_comprehensive inp ≠ "") ∧
    (∀ inp : ResolverInput, otruthy (strategyChain inp) = false →
      extract_job_id_comprehensive inp = "gen-" ++ (md5hex (strBytes inp.url)).take 10) ∧
    (∀ i1 i2 : ResolverInput, otruthy (strategyChain i1) = false →
      otruthy (strategyChain i2) = false → i1.url = i2.url →
      extract_job_id_comprehensive i1 = extract_job_id_comprehensive i2) := by
  have hfb : ∀ inp : ResolverInput, otruthy (strategyChain inp) = false →
      extract_job_id_comprehensive inp = "gen-" ++ (md5hex (strBytes inp.url)).take 10 := by
    intro inp h
    rw [extract_job_id_comprehensive]
    cases hj : strategyChain inp with
    | none => rfl
    | some s =>
      rw [hj] at h
      simp only [otruthy] at h
      have hs : s = "" := by simpa using h
      dsimp only
      rw [if_pos hs]
  refine ⟨?_, hfb, ?_⟩
  · intro inp
    rw [extract_job_id_comprehensive]
    cases hj : strategyChain inp with
    | none => exact gen_ne_empty _
    | some s =>
      dsimp only
      by_cases hs : s = ""
      · rw [if_pos hs]; exact gen_ne_empty _
      · rw [if_neg hs]; exact hs
  · intro i1 i2 h1 h2 hurl
    rw [hfb i1 h1, hfb i2 h2, hurl]

/-- C7 witness: two inputs with the same URL but different candidate
sources, both with every strategy failing, resolve to the same id. -/
theorem c7_resolver_total_deterministic_witness :
    otruthy (strategyChain ⟨none, "https://x.example/nothing", none, none, [], []⟩) = false ∧
    extract_job_id_comprehensive ⟨none, "https://x.example/nothing", none, none, [], []⟩
      = extract_job_id_comprehensive
          ⟨some "", "https://x.example/nothing", some "", none, [], ["no ids here"]⟩ :=
  ⟨by decide,
   c7_resolver_total_deterministic.2.2
     ⟨none, "https://x.example/nothing", none, none, [], []⟩
     ⟨some "", "https://x.example/nothing", some "", none, [], ["no ids here"]⟩
     (by decide) (by decide) rfl⟩
